import Mathlib

/-!
Verification of the rpi_audio_looper_c audio engine.

This file gives a shallow embedding in Lean 4 of the parts of the looper
relevant to the checked properties:

* `updateIndices` and the Passthrough branch of `playRecord`
  (src/src/track_manager.c);
* `overdub` and `doMixDown` (the working mixer revision, src/unnamed/part_001);
* the control state machine: `startRecording`, `stopRecording`,
  `stopOverdubbing`, `removeTrackFromGroup`, `processUART`, etc.
  (the control file, src/unnamed/part_000).

Audio samples (C `jack_default_audio_sample_t`, a single-precision float) are
modelled as rationals `ℚ`; the float constant `FLT_MAX` becomes the exact
rational value of the largest finite single-precision float.  All C index
arithmetic is on `uint32_t`; additions that can overflow are modelled with an
explicit `% 2^32`.  Sample buffers are total functions `ℕ → ℚ`; a C `memcpy`
of `k` samples becomes a pointwise overwrite of the first `k` positions.
Track pointers (`struct Track *`) inside the per-group membership arrays are
modelled as `Option ℕ`: `none` is a NULL slot and `some ti` a pointer to
`tracks[ti]`.
-/

namespace RpiLooper

/-- C: `NUM_TRACKS` (local.h). -/
def NUM_TRACKS : ℕ := 16

/-- C: `NUM_GROUPS` (local.h). -/
def NUM_GROUPS : ℕ := 4

/-- C: `SAMPLE_LIMIT = 44100 * TRACK_MAX_LENGTH_S` (local.h). -/
def SAMPLE_LIMIT : ℕ := 44100 * 60

/-- Modulus of C `uint32_t` arithmetic. -/
def U32 : ℕ := 2 ^ 32

/-- The exact value of the C constant `FLT_MAX` (largest finite
single-precision float, `(2 - 2⁻²³)·2¹²⁷`), as a rational. -/
def FLT_MAX : ℚ := (2 ^ 24 - 1) * 2 ^ 104

/-- C: `enum TrackState` (tracks.h / local.h). -/
inductive TrackState
  | off
  | playback
  | recording
  | mute
deriving DecidableEq, Repr

/-- C: `enum SystemStates` (local.h). -/
inductive SystemState
  | passthrough
  | playback
  | recording
  | overdubbing
  | calibration
deriving DecidableEq, Repr

/-- C: `struct Track` (tracks.h).  The two sample buffers are total functions;
`maxIdx` is the malloc'd capacity.  The C field `repeat` keeps its name. -/
structure Track where
  channelLeft : ℕ → ℚ
  channelRight : ℕ → ℚ
  currIdx : ℕ
  startIdx : ℕ
  endIdx : ℕ
  maxIdx : ℕ
  state : TrackState
  «repeat» : Bool

/-- C: `struct ControlContext` (control file, src/unnamed/part_000).  The C
field `repeat` keeps its name; `event` holds a `SystemEvents` enum value as
the `uint8_t` the C struct stores. -/
structure ControlContext where
  track : ℕ
  group : ℕ
  event : ℕ
  «repeat» : Bool
  updated : Bool
deriving DecidableEq, Repr

/-- C: `enum SystemEvents` (local.h), in declaration order. -/
def SYSTEM_EVENT_PASSTHROUGH : ℕ := 0
/-- C: `SYSTEM_EVENT_RECORD_TRACK`. -/
def SYSTEM_EVENT_RECORD_TRACK : ℕ := 1
/-- C: `SYSTEM_EVENT_OVERDUB_TRACK`. -/
def SYSTEM_EVENT_OVERDUB_TRACK : ℕ := 2
/-- C: `SYSTEM_EVENT_PLAY_TRACK`. -/
def SYSTEM_EVENT_PLAY_TRACK : ℕ := 3
/-- C: `SYSTEM_EVENT_MUTE_TRACK`. -/
def SYSTEM_EVENT_MUTE_TRACK : ℕ := 4
/-- C: `SYSTEM_EVENT_UNMUTE_TRACK`. -/
def SYSTEM_EVENT_UNMUTE_TRACK : ℕ := 5
/-- C: `SYSTEM_EVENT_ADD_TRACK_TO_GROUP`. -/
def SYSTEM_EVENT_ADD_TRACK_TO_GROUP : ℕ := 6
/-- C: `SYSTEM_EVENT_REMOVE_TRACK_FROM_GROUP`. -/
def SYSTEM_EVENT_REMOVE_TRACK_FROM_GROUP : ℕ := 7
/-- C: `SYSTEM_EVENT_SET_ACTIVE_GROUP`. -/
def SYSTEM_EVENT_SET_ACTIVE_GROUP : ℕ := 8

/-- C: `struct MasterLooper` (local.h), restricted to the fields the engine
logic reads and writes (Jack port/thread handles and diagnostic counters are
dropped).  `groupedTracks g t = some ti` models the pointer
`looper->groupedTracks[g][t] == &looper->tracks[ti]`, `none` models NULL. -/
structure MasterLooper where
  tracks : ℕ → Track
  groupedTracks : ℕ → ℕ → Option ℕ
  masterLength : ℕ → ℕ
  masterCurrIdx : ℕ
  selectedTrack : ℕ
  selectedGroup : ℕ
  state : SystemState
  rec_frame_delay : ℕ
  play_frame_delay : ℕ

/-- Write `v` into the two-dimensional membership map at `(g, t)`. -/
def setGrouped (f : ℕ → ℕ → Option ℕ) (g t : ℕ) (v : Option ℕ) :
    ℕ → ℕ → Option ℕ :=
  Function.update f g (Function.update (f g) t v)

/-! ## Position engine: `updateIndices` (src/src/track_manager.c) -/

/-- Body of the `while (idx < NUM_TRACKS)` loop of `updateIndices`
(src/src/track_manager.c, lines 441–492), for one slot `idx` of the active
group.  `sg`/`st` are the values of the locals `uint8_t sg, st` read at
function entry.  Note that the recording branch tests
`SYSTEM_STATE_CALIBRATION /*OVERDUBBING*/ || SYSTEM_STATE_RECORDING`,
exactly as the C source does. -/
def updateIndicesStep (sg st n : ℕ) (l : MasterLooper) (idx : ℕ) :
    MasterLooper :=
  match l.groupedTracks sg idx with
  | none => l
  | some ti =>
    let t0 := l.tracks ti
    if t0.state = TrackState.off then l
    else
      -- track->currIdx += nframes (uint32_t)
      let t1 := { t0 with currIdx := (t0.currIdx + n) % U32 }
      if st = idx ∧
          (l.state = SystemState.calibration ∨
           l.state = SystemState.recording) then
        -- buffer-full guard, then endIdx / masterLength growth
        let full := t1.currIdx > SAMPLE_LIMIT
        let t2 := if full then { t1 with currIdx := SAMPLE_LIMIT } else t1
        let st2 := if full then SystemState.playback else l.state
        let t3 := if t2.currIdx > t2.endIdx then { t2 with endIdx := t2.currIdx }
                  else t2
        let ml := if t3.endIdx > l.masterLength sg then
                    Function.update l.masterLength sg t3.endIdx
                  else l.masterLength
        { l with tracks := Function.update l.tracks ti t3,
                 state := st2, masterLength := ml }
      else
        -- playback branch: repeat wrap, then global master reset of currIdx
        let t2 := if t1.«repeat» ∧ t1.currIdx > t1.endIdx then
                    { t1 with currIdx := t1.startIdx }
                  else t1
        let t3 := if l.masterCurrIdx > l.masterLength sg then
                    { t2 with currIdx := if t2.«repeat» then t2.startIdx else 0 }
                  else t2
        { l with tracks := Function.update l.tracks ti t3 }

/-- C: `updateIndices` (src/src/track_manager.c, lines 426–507).  Advances the
master index with clamping, runs the per-slot loop over the active group, and
finally resets the master index when playback ran past the master length. -/
def updateIndices (l : MasterLooper) (n : ℕ) : MasterLooper :=
  let sg := l.selectedGroup
  let st := l.selectedTrack
  let m1 := (l.masterCurrIdx + n) % U32
  let m2 := if m1 > SAMPLE_LIMIT then SAMPLE_LIMIT else m1
  let l1 : MasterLooper := { l with masterCurrIdx := m2 }
  let l2 := (List.range NUM_TRACKS).foldl (updateIndicesStep sg st n) l1
  if l2.state = SystemState.playback ∧ l2.masterCurrIdx > l2.masterLength sg
  then { l2 with masterCurrIdx := 0 }
  else l2

/-! ## Passthrough branch of `playRecord` (src/src/track_manager.c) -/

/-- C: the sample count behind `byteSize` in `playRecord`
(src/src/track_manager.c, lines 548–552):
`(rec_frame_delay > 0) ? (nframes - rec_frame_delay) :
 (play_frame_delay > 0) ? play_frame_delay : nframes`.
The delays are frame offsets inside the current cycle, hence `≤ n`; the
subtraction is modelled as truncated `Nat` subtraction. -/
def passthroughCopyCount (l : MasterLooper) (n : ℕ) : ℕ :=
  if l.rec_frame_delay > 0 then n - l.rec_frame_delay
  else if l.play_frame_delay > 0 then l.play_frame_delay
  else n

/-- C: the `SYSTEM_STATE_PASSTHROUGH` arm of `playRecord`
(src/src/track_manager.c, lines 584–597).  `memcpy (outL, inL, byteSize)`
overwrites the first `passthroughCopyCount` samples of the output; a missing
right input with a present right output duplicates the left input
(simulated mono); a missing right output leaves `outR` absent.  Returns the
new contents of the two output port buffers. -/
def playRecordPassthrough (l : MasterLooper) (inL : ℕ → ℚ)
    (inR : Option (ℕ → ℚ)) (outL : ℕ → ℚ) (outR : Option (ℕ → ℚ)) (n : ℕ) :
    (ℕ → ℚ) × Option (ℕ → ℚ) :=
  let k := passthroughCopyCount l n
  let outL' := fun i => if i < k then inL i else outL i
  let outR' :=
    match inR, outR with
    | none, some g => some (fun i => if i < k then inL i else g i)
    | some fR, some g => some (fun i => if i < k then fR i else g i)
    | _, none => none
  (outL', outR')

/-! ## Mixer: `overdub` and `doMixDown` (src/unnamed/part_001) -/

/-- C: the limiter pattern used throughout the mixer
(`if (sum > 0.9 * FLT_MAX) sum *= 0.9;`).  Note that the source tests only
the positive side — a large negative sum is not scaled. -/
def limiter (x : ℚ) : ℚ :=
  if x > (9 / 10) * FLT_MAX then x * (9 / 10) else x

/-- C: the `for (sample = 0; sample < nframes; sample++)` loop of `overdub`
(src/unnamed/part_001, lines 62–71), unrolled front-first: `overdubLoop src
track k` is the track buffer after the first `k` iterations, each storing
`limiter (in[sample] + track[sample])` at `track[sample]`.  The C loop
counter is a `uint8_t`, so the source only terminates for `nframes ≤ 255`;
the realtime cycle uses `nframes = 128`. -/
def overdubLoop (src track : ℕ → ℚ) : ℕ → (ℕ → ℚ)
  | 0 => track
  | k + 1 =>
    let t := overdubLoop src track k
    Function.update t k (limiter (src k + t k))

/-- C: `overdub (in, track, nframes)` (src/unnamed/part_001, lines 53–72),
giving the track channel contents after the call.  The call sites pass
`&channel[trackIdx]` for `track`, so `track` here is the buffer slice
starting at the write offset. -/
def overdub (src track : ℕ → ℚ) (nframes : ℕ) : ℕ → ℚ :=
  overdubLoop src track nframes

/-- One iteration of the `while (idx < NUM_TRACKS)` accumulation inside
`doMixDown` (src/unnamed/part_001, lines 114–150) for the left channel:
a non-NULL slot whose track passes
`currIdx >= startIdx && currIdx < endIdx && state not Off/Mute` contributes
`channelLeft[currIdx + sample]` whenever `currIdx + sample <= endIdx`
(note the non-strict bound in the source), with the limiter applied to the
running sum after the addition. -/
def doMixDownStepLeft (l : MasterLooper) (s : ℕ) (sum : ℚ) (idx : ℕ) : ℚ :=
  match l.groupedTracks l.selectedGroup idx with
  | none => sum
  | some ti =>
    let t := l.tracks ti
    if t.currIdx ≥ t.startIdx ∧ t.currIdx < t.endIdx ∧
        t.state ≠ TrackState.off ∧ t.state ≠ TrackState.mute then
      let trackIdx := t.currIdx + s
      if trackIdx ≤ t.endIdx then limiter (sum + t.channelLeft trackIdx)
      else sum
    else sum

/-- Same for the right channel (`channelRight`, summed unconditionally by the
source whenever the track contributes). -/
def doMixDownStepRight (l : MasterLooper) (s : ℕ) (sum : ℚ) (idx : ℕ) : ℚ :=
  match l.groupedTracks l.selectedGroup idx with
  | none => sum
  | some ti =>
    let t := l.tracks ti
    if t.currIdx ≥ t.startIdx ∧ t.currIdx < t.endIdx ∧
        t.state ≠ TrackState.off ∧ t.state ≠ TrackState.mute then
      let trackIdx := t.currIdx + s
      if trackIdx ≤ t.endIdx then limiter (sum + t.channelRight trackIdx)
      else sum
    else sum

/-- C: the value `doMixDown` (src/unnamed/part_001, lines 89–172) stores into
`mixdownBufferLeft[sample]`: the track accumulation over the active group's
sixteen slots followed by the (optional) live left input, limited after each
addition.  `inL = none` models a NULL `inBufferLeft`. -/
def doMixDownSampleLeft (l : MasterLooper) (inL : Option (ℕ → ℚ)) (s : ℕ) :
    ℚ :=
  let sum := (List.range NUM_TRACKS).foldl (doMixDownStepLeft l s) 0
  match inL with
  | none => sum
  | some f => limiter (sum + f s)

/-- C: the value stored into `mixdownBufferRight[sample]`. -/
def doMixDownSampleRight (l : MasterLooper) (inR : Option (ℕ → ℚ)) (s : ℕ) :
    ℚ :=
  let sum := (List.range NUM_TRACKS).foldl (doMixDownStepRight l s) 0
  match inR with
  | none => sum
  | some f => limiter (sum + f s)

/-! ## Control state machine (src/unnamed/part_000) -/

/-- C: `getNumActiveTracks` (control file): counts the slots of the active
group whose track has recorded data (`endIdx > 0`).  The C loop dereferences
`groupedTracks[selectedGroup][track]->endIdx` without a NULL check; an empty
slot is modelled as contributing nothing. -/
def getNumActiveTracks (l : MasterLooper) : ℕ :=
  (List.range NUM_TRACKS).foldl
    (fun c tr =>
      match l.groupedTracks l.selectedGroup tr with
      | none => c
      | some ti => if (l.tracks ti).endIdx > 0 then c + 1 else c) 0

/-- C: `startRecording` (control file, lines 716–758): bind the track into the
group if absent, conditionally reset the master index and the group's master
length, then point start/current at the master index, zero the end index, and
enter Recording. -/
def startRecording (l : MasterLooper) (cc : ControlContext) : MasterLooper :=
  let l1 :=
    if l.groupedTracks cc.group cc.track = none then
      { l with groupedTracks :=
          setGrouped l.groupedTracks cc.group cc.track (some cc.track) }
    else l
  let l2 :=
    if getNumActiveTracks l1 = 0 ∨ cc.group ≠ l1.selectedGroup ∨
        (getNumActiveTracks l1 = 1 ∧ l1.selectedTrack = cc.track) then
      { l1 with masterCurrIdx := 0,
                masterLength := Function.update l1.masterLength cc.group 0 }
    else l1
  let t := l2.tracks cc.track
  let t' := { t with «repeat» := false, endIdx := 0,
                     currIdx := l2.masterCurrIdx,
                     startIdx := l2.masterCurrIdx,
                     state := TrackState.recording }
  { l2 with tracks := Function.update l2.tracks cc.track t',
            selectedGroup := cc.group, selectedTrack := cc.track,
            state := SystemState.recording }

/-- C: `startOverdubbing` (control file, lines 768–781). -/
def startOverdubbing (l : MasterLooper) (cc : ControlContext) :
    MasterLooper :=
  if (l.tracks cc.track).state ≠ TrackState.playback then l
  else
    { l with selectedTrack := cc.track,
             tracks := Function.update l.tracks cc.track
               { l.tracks cc.track with state := TrackState.recording },
             state := SystemState.overdubbing }

/-- C: `stopRecording` (control file, lines 791–814).  The handler first
overwrites the command's track and group with the selected ones, optionally
latches repeat, finalizes `endIdx = currIdx + play_frame_delay`, grows the
master length (resetting the master index) when it lags behind the master
index, and moves track and system to Playback.  Returns the updated looper
and the updated (overwritten) command context, as the C mutates the static
`cc`. -/
def stopRecording (l : MasterLooper) (cc : ControlContext) :
    MasterLooper × ControlContext :=
  let cc' := { cc with track := l.selectedTrack, group := l.selectedGroup }
  let l1 :=
    if cc'.«repeat» then
      { l with tracks := Function.update l.tracks cc'.track
                 { l.tracks cc'.track with «repeat» := cc'.«repeat» } }
    else l
  let t := l1.tracks cc'.track
  let l2 := { l1 with tracks := Function.update l1.tracks cc'.track
                        { t with endIdx :=
                            (t.currIdx + l1.play_frame_delay) % U32 } }
  let l3 :=
    if l2.masterLength cc'.group < l2.masterCurrIdx then
      { l2 with masterLength := Function.update l2.masterLength cc'.group
                  ((l2.masterCurrIdx + l2.play_frame_delay) % U32),
                masterCurrIdx := 0 }
    else l2
  let l4 := { l3 with state := SystemState.playback,
                      tracks := Function.update l3.tracks cc'.track
                        { l3.tracks cc'.track with
                            state := TrackState.playback } }
  (l4, cc')

/-- C: `stopOverdubbing` (control file, lines 824–848).  Identical to
`stopRecording` except that `endIdx` is only finalized when it lags behind
`currIdx`. -/
def stopOverdubbing (l : MasterLooper) (cc : ControlContext) :
    MasterLooper × ControlContext :=
  let cc' := { cc with track := l.selectedTrack, group := l.selectedGroup }
  let l1 :=
    if cc'.«repeat» then
      { l with tracks := Function.update l.tracks cc'.track
                 { l.tracks cc'.track with «repeat» := cc'.«repeat» } }
    else l
  let t := l1.tracks cc'.track
  let l2 :=
    if t.endIdx < t.currIdx then
      { l1 with tracks := Function.update l1.tracks cc'.track
                  { t with endIdx :=
                      (t.currIdx + l1.play_frame_delay) % U32 } }
    else l1
  let l3 :=
    if l2.masterLength cc'.group < l2.masterCurrIdx then
      { l2 with masterLength := Function.update l2.masterLength cc'.group
                  ((l2.masterCurrIdx + l2.play_frame_delay) % U32),
                masterCurrIdx := 0 }
    else l2
  let l4 := { l3 with state := SystemState.playback,
                      tracks := Function.update l3.tracks cc'.track
                        { l3.tracks cc'.track with
                            state := TrackState.playback } }
  (l4, cc')

/-- C: `resetSystem` (control file, lines 858–889): zero all master lengths
and the master index, reset the selections, switch every track Off with zero
indices, empty every group, and return to Passthrough. -/
def resetSystem (l : MasterLooper) : MasterLooper :=
  { l with
      masterLength := fun _ => 0,
      masterCurrIdx := 0,
      selectedTrack := 0,
      selectedGroup := 0,
      tracks := fun tr =>
        { l.tracks tr with state := TrackState.off, endIdx := 0,
                           currIdx := 0, startIdx := 0, «repeat» := false },
      groupedTracks := fun _ _ => none,
      state := SystemState.passthrough }

/-- C: `muteTrack` (control file, lines 899–908). -/
def muteTrack (l : MasterLooper) (cc : ControlContext) : MasterLooper :=
  if (l.tracks cc.track).state = TrackState.off then l
  else
    { l with selectedTrack := cc.track,
             tracks := Function.update l.tracks cc.track
               { l.tracks cc.track with state := TrackState.mute } }

/-- C: `unmuteTrack` (control file, lines 918–927). -/
def unmuteTrack (l : MasterLooper) (cc : ControlContext) : MasterLooper :=
  if (l.tracks cc.track).state = TrackState.off then l
  else
    { l with selectedTrack := cc.track,
             tracks := Function.update l.tracks cc.track
               { l.tracks cc.track with state := TrackState.playback } }

/-- C: `assignTrackToGroup` (control file, lines 937–941). -/
def assignTrackToGroup (l : MasterLooper) (cc : ControlContext) :
    MasterLooper :=
  { l with groupedTracks :=
      setGrouped l.groupedTracks cc.group cc.track (some cc.track) }

/-- C: `removeTrackFromGroup` (control file, lines 951–955): NULL the slot and
nothing else — in particular `masterLength` is not recomputed. -/
def removeTrackFromGroup (l : MasterLooper) (cc : ControlContext) :
    MasterLooper :=
  { l with groupedTracks := setGrouped l.groupedTracks cc.group cc.track none }

/-- C: `setActiveGroup` (control file, lines 967–990).  First pass mutes
`tracks[track]` whenever the new group's slot `track` points at a non-Off
track (the C dereferences the slot without a NULL check; an empty slot is
modelled as skipped); second pass sets each non-empty, non-Off slot's track
to Playback and rewinds `tracks[track].currIdx`; finally the master index is
reset. -/
def setActiveGroup (l : MasterLooper) (cc : ControlContext) : MasterLooper :=
  let l1 := { l with selectedGroup := cc.group }
  let l2 := (List.range NUM_TRACKS).foldl
    (fun l' tr =>
      match l'.groupedTracks l'.selectedGroup tr with
      | none => l'
      | some ti =>
        if (l'.tracks ti).state ≠ TrackState.off then
          { l' with tracks := Function.update l'.tracks tr
                      { l'.tracks tr with state := TrackState.mute } }
        else l') l1
  let l3 := (List.range NUM_TRACKS).foldl
    (fun l' tr =>
      match l'.groupedTracks l'.selectedGroup tr with
      | none => l'
      | some ti =>
        if (l'.tracks ti).state ≠ TrackState.off then
          let la := { l' with tracks := Function.update l'.tracks ti
                                { l'.tracks ti with
                                    state := TrackState.playback } }
          let t := la.tracks tr
          { la with tracks := Function.update la.tracks tr
                      { t with currIdx :=
                          if t.«repeat» then t.startIdx else 0 } }
        else l') l2
  { l3 with masterCurrIdx := 0 }

/-- C: `updateRepeatStatus` (control file, lines 1000–1017). -/
def updateRepeatStatus (l : MasterLooper) (cc : ControlContext) :
    MasterLooper :=
  let l1 := { l with selectedTrack := cc.track }
  if xor (l1.tracks cc.track).«repeat» cc.«repeat» then
    { l1 with tracks := Function.update l1.tracks cc.track
                { l1.tracks cc.track with «repeat» := cc.«repeat» } }
  else l1

/-- C: `eventHandlerPassthrough` (control file, lines 1028–1054): only a
Record event acts; everything else is ignored. -/
def eventHandlerPassthrough (l : MasterLooper) (cc : ControlContext) :
    MasterLooper × ControlContext :=
  if cc.event = SYSTEM_EVENT_RECORD_TRACK then (startRecording l cc, cc)
  else (l, cc)

/-- C: `eventHandlerPlayback` (control file, lines 1064–1098). -/
def eventHandlerPlayback (l : MasterLooper) (cc : ControlContext) :
    MasterLooper × ControlContext :=
  if cc.event = SYSTEM_EVENT_PASSTHROUGH then (resetSystem l, cc)
  else if cc.event = SYSTEM_EVENT_RECORD_TRACK then (startRecording l cc, cc)
  else if cc.event = SYSTEM_EVENT_OVERDUB_TRACK then
    (startOverdubbing l cc, cc)
  else if cc.event = SYSTEM_EVENT_PLAY_TRACK then (updateRepeatStatus l cc, cc)
  else if cc.event = SYSTEM_EVENT_MUTE_TRACK then (muteTrack l cc, cc)
  else if cc.event = SYSTEM_EVENT_UNMUTE_TRACK then (unmuteTrack l cc, cc)
  else if cc.event = SYSTEM_EVENT_ADD_TRACK_TO_GROUP then
    (assignTrackToGroup l cc, cc)
  else if cc.event = SYSTEM_EVENT_REMOVE_TRACK_FROM_GROUP then
    (removeTrackFromGroup l cc, cc)
  else if cc.event = SYSTEM_EVENT_SET_ACTIVE_GROUP then
    (setActiveGroup l cc, cc)
  else (l, cc)

/-- C: `eventHandlerRecording` (control file, lines 1108–1135): Passthrough
resets, Play stops the recording, everything else is ignored. -/
def eventHandlerRecording (l : MasterLooper) (cc : ControlContext) :
    MasterLooper × ControlContext :=
  if cc.event = SYSTEM_EVENT_PASSTHROUGH then (resetSystem l, cc)
  else if cc.event = SYSTEM_EVENT_PLAY_TRACK then stopRecording l cc
  else (l, cc)

/-- C: `eventHandlerOverdubbing` (control file, lines 1145–1172). -/
def eventHandlerOverdubbing (l : MasterLooper) (cc : ControlContext) :
    MasterLooper × ControlContext :=
  if cc.event = SYSTEM_EVENT_PASSTHROUGH then (resetSystem l, cc)
  else if cc.event = SYSTEM_EVENT_PLAY_TRACK then stopOverdubbing l cc
  else (l, cc)

/-- C: `controlStateMachine` (control file, lines 1182–1201): dispatch the
pending event on the current system state; Calibration falls into the
`default` arm and ignores the event. -/
def controlStateMachine (l : MasterLooper) (cc : ControlContext) :
    MasterLooper × ControlContext :=
  match l.state with
  | SystemState.passthrough => eventHandlerPassthrough l cc
  | SystemState.playback => eventHandlerPlayback l cc
  | SystemState.recording => eventHandlerRecording l cc
  | SystemState.overdubbing => eventHandlerOverdubbing l cc
  | SystemState.calibration => (l, cc)

/-! ## Serial command parsing: `processUART` (src/unnamed/part_000) -/

/-- C: the two-digit track decode
`cc.track = (buf[1]-48)*10; cc.track += (buf[2]-48);` — `cc.track` is a
`uint8_t`, so the value is the two's-complement truncation mod 256 of the
`int` expression. -/
def decodeTrack (b1 b2 : ℕ) : ℕ :=
  ((((b1 : ℤ) - 48) * 10 + ((b2 : ℤ) - 48)).emod 256).toNat

/-- C: the one-digit group decode `cc.group = buf[k] - 48;` (`uint8_t`). -/
def decodeGroup (b : ℕ) : ℕ :=
  (((b : ℤ) - 48).emod 256).toNat

/-- C: `processUART` (control file, lines 1214–1334).  The six command bytes
are ASCII codes; positions follow local.h
(`SERIAL_CMD_OFFSET 0`, track digits 1–2, sub-command 3, group digit 4,
last char 5).  Returns the updated static `cc`, the list of reply bytes
written with `serialPutchar` ('p' = 112 accepted, 'f' = 102 rejected), and
the `exitNow` flag.  The `min_serial_data_length >= MIN_SERIAL_DATA_LENGTH`
conjunct of the early return is constant true after init and is dropped.
The early return on an invalid last byte (not CR, not 'r', not 's') emits no
reply byte at all.  The recognized commands update the persistent `cc` only
along their recognized pattern; the trailing bounds check then tests the
possibly stale `cc.track`/`cc.group`. -/
def processUART (cc : ControlContext) (buf : ℕ → ℕ) :
    ControlContext × List ℕ × Bool :=
  if buf 5 ≠ 13 ∧ buf 5 ≠ 114 ∧ buf 5 ≠ 115 then (cc, [], false)
  else
    let step : ControlContext × Bool × Bool :=
      if buf 0 = 111 ∨ buf 0 = 79 then          -- 'o' / 'O': overdub
        ({ cc with event := SYSTEM_EVENT_OVERDUB_TRACK,
                   track := decodeTrack (buf 1) (buf 2) }, false, false)
      else if buf 0 = 114 ∨ buf 0 = 82 then     -- 'r' / 'R': record
        if buf 3 = 103 ∨ buf 3 = 71 then        -- sub-command 'g' / 'G'
          ({ cc with event := SYSTEM_EVENT_RECORD_TRACK,
                     track := decodeTrack (buf 1) (buf 2),
                     group := decodeGroup (buf 4) }, false, false)
        else (cc, false, false)
      else if buf 0 = 109 ∨ buf 0 = 77 then     -- 'm' / 'M': mute
        ({ cc with event := SYSTEM_EVENT_MUTE_TRACK,
                   track := decodeTrack (buf 1) (buf 2) }, false, false)
      else if buf 0 = 117 ∨ buf 0 = 85 then     -- 'u' / 'U': unmute
        ({ cc with event := SYSTEM_EVENT_UNMUTE_TRACK,
                   track := decodeTrack (buf 1) (buf 2) }, false, false)
      else if buf 0 = 116 ∨ buf 0 = 84 then     -- 't' / 'T': add to group
        if buf 3 = 103 ∨ buf 3 = 71 then
          ({ cc with event := SYSTEM_EVENT_ADD_TRACK_TO_GROUP,
                     track := decodeTrack (buf 1) (buf 2),
                     group := decodeGroup (buf 4) }, false, false)
        else (cc, false, false)
      else if buf 0 = 100 ∨ buf 0 = 68 then     -- 'd' / 'D': remove
        if buf 3 = 103 ∨ buf 3 = 71 then
          ({ cc with event := SYSTEM_EVENT_REMOVE_TRACK_FROM_GROUP,
                     track := decodeTrack (buf 1) (buf 2),
                     group := decodeGroup (buf 4) }, false, false)
        else (cc, false, false)
      else if buf 0 = 103 ∨ buf 0 = 71 then     -- 'g' / 'G': select group
        ({ cc with event := SYSTEM_EVENT_SET_ACTIVE_GROUP,
                   group := decodeGroup (buf 1) }, false, false)
      else if buf 0 = 112 ∨ buf 0 = 80 then     -- 'p' / 'P': play
        let cc1 := { cc with event := SYSTEM_EVENT_PLAY_TRACK }
        let cc2 := if buf 5 = 114 then          -- trailing 'r': repeat on
                     { cc1 with track := decodeTrack (buf 1) (buf 2),
                                «repeat» := true }
                   else cc1
        let cc3 := if buf 5 = 115 then          -- trailing 's': repeat off
                     { cc2 with track := decodeTrack (buf 1) (buf 2),
                                «repeat» := false }
                   else cc2
        (cc3, false, false)
      else if buf 0 = 115 ∨ buf 0 = 83 then     -- 's' / 'S': system reset
        ({ cc with track := 0, group := 0,
                   event := SYSTEM_EVENT_PASSTHROUGH }, false, false)
      else if buf 0 = 113 ∨ buf 0 = 81 then     -- 'q' / 'Q': quit
        (cc, false, true)
      else (cc, true, false)                    -- default: invalidData
    let cc' := step.1
    let invalidData := step.2.1
    let exitNow := step.2.2
    if cc'.track < NUM_TRACKS ∧ cc'.group < NUM_GROUPS ∧
        invalidData = false then
      ({ cc' with updated := true }, [112], exitNow)
    else
      (cc', [102], exitNow)

/-! ## Concrete fixtures -/

/-- A track that is Off and empty, with zeroed buffers. -/
def defaultTrack : Track :=
  { channelLeft := fun _ => 0, channelRight := fun _ => 0,
    currIdx := 0, startIdx := 0, endIdx := 0, maxIdx := SAMPLE_LIMIT,
    state := TrackState.off, «repeat» := false }

/-- A looper with all tracks Off, all groups empty, everything zeroed,
in Passthrough. -/
def emptyLooper : MasterLooper :=
  { tracks := fun _ => defaultTrack,
    groupedTracks := fun _ _ => none,
    masterLength := fun _ => 0,
    masterCurrIdx := 0, selectedTrack := 0, selectedGroup := 0,
    state := SystemState.passthrough,
    rec_frame_delay := 0, play_frame_delay := 0 }

/-- The initial value of the static `cc` in the control file (zeroed). -/
def initialCC : ControlContext :=
  { track := 0, group := 0, event := 0, «repeat» := false, updated := false }

/-- Build a six-byte UART command buffer from its byte values. -/
def mkBuf (a b c d e f : ℕ) : ℕ → ℕ := fun i => [a, b, c, d, e, f].getD i 0

/-- The maximum of `endIdx` over the member tracks of group `g` (0 when the
group is empty) — the quantity the spec says `masterLength[g]` tracks. -/
def groupMaxEnd (l : MasterLooper) (g : ℕ) : ℕ :=
  (Finset.range NUM_TRACKS).sup fun idx =>
    match l.groupedTracks g idx with
    | none => 0
    | some ti => (l.tracks ti).endIdx

/-- The structural pointer discipline of the control code: group slot `t`
either is NULL or points at `tracks[t]` (every write of a slot in the source
stores `&looper->tracks[cc.track]` at `groupedTracks[cc.group][cc.track]`). -/
def slotsCanonical (l : MasterLooper) : Prop :=
  ∀ g t ti, l.groupedTracks g t = some ti → ti = t

/-- A passthrough looper in which a Record command arrived 64 frames into the
previous cycle (`rec_frame_delay = 64`). -/
def delayLooper : MasterLooper :=
  { emptyLooper with rec_frame_delay := 64 }

/-- A selected recording track 64 samples short of the capacity limit. -/
def bufFullTrack : Track :=
  { defaultTrack with
      currIdx := SAMPLE_LIMIT - 64
      endIdx := SAMPLE_LIMIT - 64
      state := TrackState.recording }

/-- A looper overdubbing `bufFullTrack` as track 0 of group 0. -/
def bufFullLooperOverdub : MasterLooper :=
  { emptyLooper with
      tracks := Function.update emptyLooper.tracks 0 bufFullTrack
      groupedTracks := setGrouped emptyLooper.groupedTracks 0 0 (some 0)
      masterLength := Function.update emptyLooper.masterLength 0 SAMPLE_LIMIT
      state := SystemState.overdubbing }

/-- The same looper, recording instead of overdubbing. -/
def bufFullLooperRecord : MasterLooper :=
  { bufFullLooperOverdub with state := SystemState.recording }

/-- The S3 scenario track: `endIdx = 256`, `startIdx = 0`, repeat on,
Playback, `currIdx = 200`, with an arbitrary left-channel buffer. -/
def repeatTrack (buf : ℕ → ℚ) : Track :=
  { defaultTrack with
      channelLeft := buf
      currIdx := 200
      endIdx := 256
      state := TrackState.playback
      «repeat» := true }

/-- The S3 scenario looper: `repeatTrack buf` alone in group 0, master length
`M`, master index 200, system in Playback. -/
def repeatScenario (buf : ℕ → ℚ) (M : ℕ) : MasterLooper :=
  { emptyLooper with
      tracks := Function.update emptyLooper.tracks 0 (repeatTrack buf)
      groupedTracks := setGrouped emptyLooper.groupedTracks 0 0 (some 0)
      masterLength := Function.update emptyLooper.masterLength 0 M
      masterCurrIdx := 200
      state := SystemState.playback }

/-- A one-sample track (`endIdx = 1`, `currIdx = 0`) whose buffer holds `1/2`
at position 1, i.e. at position `endIdx` exactly. -/
def edgeTrack : Track :=
  { defaultTrack with
      channelLeft := fun i => if i = 1 then 1 / 2 else 0
      currIdx := 0
      endIdx := 1
      state := TrackState.playback }

/-- A looper playing `edgeTrack` alone in group 0. -/
def edgeLooper : MasterLooper :=
  { emptyLooper with
      tracks := Function.update emptyLooper.tracks 0 edgeTrack
      groupedTracks := setGrouped emptyLooper.groupedTracks 0 0 (some 0)
      state := SystemState.playback }

/-- A playback track with 100 recorded samples. -/
def lenTrack : Track :=
  { defaultTrack with endIdx := 100, state := TrackState.playback }

/-- A looper whose group 0 contains exactly `lenTrack` (as track 0), with
`masterLength[0] = 100` — the master-length bookkeeping is exact here. -/
def lenLooper : MasterLooper :=
  { emptyLooper with
      tracks := Function.update emptyLooper.tracks 0 lenTrack
      groupedTracks := setGrouped emptyLooper.groupedTracks 0 0 (some 0)
      masterLength := Function.update emptyLooper.masterLength 0 100
      state := SystemState.playback }

/-- A looper mid-loop: track 0 of group 0 is playing (`endIdx = 100`) and the
master index stands at 500 of a 1000-sample master length. -/
def midLooper : MasterLooper :=
  { emptyLooper with
      tracks := Function.update emptyLooper.tracks 0 lenTrack
      groupedTracks := setGrouped emptyLooper.groupedTracks 0 0 (some 0)
      masterLength := Function.update emptyLooper.masterLength 0 1000
      masterCurrIdx := 500
      state := SystemState.playback }

/-- A track whose position has run past its end without repeat
(`currIdx = 150 > endIdx = 100`). -/
def staleTrack : Track :=
  { defaultTrack with
      currIdx := 150
      endIdx := 100
      state := TrackState.playback }

/-- A looper whose group 0 holds only `staleTrack`. -/
def staleLooper : MasterLooper :=
  { emptyLooper with
      tracks := Function.update emptyLooper.tracks 0 staleTrack
      groupedTracks := setGrouped emptyLooper.groupedTracks 0 0 (some 0)
      state := SystemState.playback }

/-! ## Helper lemmas -/

/-- The per-slot loop body of `updateIndices` never writes the master index,
the membership arrays, the selections, or the frame delays. -/
theorem updateIndicesStep_frame (sg st n : ℕ) (l : MasterLooper) (idx : ℕ) :
    (updateIndicesStep sg st n l idx).masterCurrIdx = l.masterCurrIdx ∧
    (updateIndicesStep sg st n l idx).groupedTracks = l.groupedTracks ∧
    (updateIndicesStep sg st n l idx).selectedGroup = l.selectedGroup ∧
    (updateIndicesStep sg st n l idx).selectedTrack = l.selectedTrack := by
  unfold updateIndicesStep
  cases l.groupedTracks sg idx with
  | none => exact ⟨rfl, rfl, rfl, rfl⟩
  | some ti =>
    dsimp only
    split
    · exact ⟨rfl, rfl, rfl, rfl⟩
    · split
      · exact ⟨rfl, rfl, rfl, rfl⟩
      · exact ⟨rfl, rfl, rfl, rfl⟩

/-- Folding the per-slot loop over any slot list keeps the master index. -/
theorem foldl_updateIndicesStep_masterCurrIdx (sg st n : ℕ) (lst : List ℕ) :
    ∀ l : MasterLooper,
      (lst.foldl (updateIndicesStep sg st n) l).masterCurrIdx =
        l.masterCurrIdx := by
  induction lst with
  | nil => intro l; rfl
  | cons a as ih =>
    intro l
    rw [List.foldl_cons, ih, (updateIndicesStep_frame sg st n l a).1]

/-- Evaluation of `overdubLoop`: after the whole loop, position `j` holds the
limited sum when `j` was visited and the original buffer value otherwise. -/
theorem overdubLoop_apply (src track : ℕ → ℚ) (n j : ℕ) :
    overdubLoop src track n j =
      if j < n then limiter (src j + track j) else track j := by
  induction n with
  | zero => simp [overdubLoop]
  | succ k ih =>
    simp only [overdubLoop]
    rcases eq_or_ne j k with rfl | hne
    · simp [ih, Nat.lt_succ_self]
    · rw [Function.update_noteq hne, ih]
      by_cases hj : j < k
      · simp [hj, Nat.lt_succ_of_lt hj]
      · have hj2 : ¬j < k + 1 := by omega
        simp [hj, hj2]

/-- A slot whose group pointer is NULL is skipped by the position engine. -/
theorem updateIndicesStep_none (sg st n : ℕ) (l : MasterLooper) (idx : ℕ)
    (h : l.groupedTracks sg idx = none) :
    updateIndicesStep sg st n l idx = l := by
  unfold updateIndicesStep
  rw [h]

/-- Folding the position-engine loop over slots that are all NULL is the
identity. -/
theorem foldl_updateIndicesStep_of_none (sg st n : ℕ) (lst : List ℕ) :
    ∀ l : MasterLooper, (∀ idx ∈ lst, l.groupedTracks sg idx = none) →
      lst.foldl (updateIndicesStep sg st n) l = l := by
  induction lst with
  | nil => intro l _; rfl
  | cons a as ih =>
    intro l h
    rw [List.foldl_cons, updateIndicesStep_none sg st n l a (h a (by simp))]
    exact ih l fun idx hidx => h idx (by simp [hidx])

/-- A fold whose step fixes every accumulator on the given list is the
identity. -/
theorem foldl_fixed {α β : Type} (f : α → β → α) (lst : List β)
    (h : ∀ a b, b ∈ lst → f a b = a) : ∀ a, lst.foldl f a = a := by
  induction lst with
  | nil => intro a; rfl
  | cons b bs ih =>
    intro a
    rw [List.foldl_cons, h a b (by simp)]
    exact ih (fun a b hb => h a b (by simp [hb])) a

/-- Evaluator for `updateIndices`: supply the clamped master index, the
result of the slot loop, and the failure of the final reset condition. -/
theorem updateIndices_eval (l : MasterLooper) (n m2 : ℕ)
    (hm : (if (l.masterCurrIdx + n) % U32 > SAMPLE_LIMIT then SAMPLE_LIMIT
           else (l.masterCurrIdx + n) % U32) = m2)
    (l2 : MasterLooper)
    (hf : (List.range NUM_TRACKS).foldl
        (updateIndicesStep l.selectedGroup l.selectedTrack n)
        { l with masterCurrIdx := m2 } = l2)
    (hcond : ¬ (l2.state = SystemState.playback ∧
        l2.masterCurrIdx > l2.masterLength l.selectedGroup)) :
    updateIndices l n = l2 := by
  unfold updateIndices
  dsimp only
  rw [hm, hf, if_neg hcond]

/-- Updating one point of a function to a value at least its old one takes
the `Finset.sup` to the max of the old sup and the new value. -/
theorem sup_update_of_le {f : ℕ → ℕ} {s : Finset ℕ} {i : ℕ} (hi : i ∈ s)
    (e : ℕ) (he : f i ≤ e) :
    s.sup (fun j => if j = i then e else f j) = max (s.sup f) e := by
  apply le_antisymm
  · refine Finset.sup_le fun j hj => ?_
    by_cases hji : j = i
    · simp [hji]
    · simp only [hji, if_false]
      exact le_trans (Finset.le_sup hj) (le_max_left _ _)
  · refine max_le ?_ ?_
    · refine Finset.sup_le fun j hj => ?_
      by_cases hji : j = i
      · subst hji
        refine le_trans he ?_
        simpa using Finset.le_sup
          (f := fun j' => if j' = j then e else f j') hj
      · simpa [hji] using Finset.le_sup
          (f := fun j' => if j' = i then e else f j') hj
    · simpa using Finset.le_sup
        (f := fun j' => if j' = i then e else f j') hi

/-- `groupMaxEnd` only depends on the membership map and the tracks'
`endIdx` fields. -/
theorem groupMaxEnd_congr (l l' : MasterLooper) (g : ℕ)
    (hg : l'.groupedTracks = l.groupedTracks)
    (ht : ∀ t, (l'.tracks t).endIdx = (l.tracks t).endIdx) :
    groupMaxEnd l' g = groupMaxEnd l g := by
  unfold groupMaxEnd
  refine Finset.sup_congr rfl fun j _ => ?_
  rw [hg]
  cases hslot : l.groupedTracks g j with
  | none => rfl
  | some ti => exact ht ti

/-- Raising the `endIdx` of a pointed track raises the group maximum to the
max of the old maximum and the new end, under the canonical slot
discipline. -/
theorem groupMaxEnd_update_superset (l : MasterLooper) (g i : ℕ) (t' : Track)
    (hc : ∀ t ti, l.groupedTracks g t = some ti → ti = t)
    (hi : i < NUM_TRACKS)
    (hslot : l.groupedTracks g i = some i)
    (he : (l.tracks i).endIdx ≤ t'.endIdx) :
    (Finset.range NUM_TRACKS).sup (fun j =>
      match l.groupedTracks g j with
      | none => 0
      | some ti => ((Function.update l.tracks i t') ti).endIdx) =
    max (groupMaxEnd l g) t'.endIdx := by
  have hfun : ∀ j, (match l.groupedTracks g j with
      | none => 0
      | some ti => ((Function.update l.tracks i t') ti).endIdx) =
      (if j = i then t'.endIdx else
        (match l.groupedTracks g j with
         | none => 0
         | some ti => (l.tracks ti).endIdx)) := by
    intro j
    by_cases hji : j = i
    · subst hji
      simp [hslot, Function.update_same]
    · cases hslot2 : l.groupedTracks g j with
      | none => simp [hji]
      | some tj =>
        have htj : tj = j := hc j tj hslot2
        subst htj
        simp [hji, Function.update_noteq hji]
  rw [Finset.sup_congr rfl fun j _ => hfun j]
  have hfi : (fun j => match l.groupedTracks g j with
      | none => 0
      | some ti => (l.tracks ti).endIdx) i = (l.tracks i).endIdx := by
    simp [hslot]
  exact sup_update_of_le (Finset.mem_range.mpr hi) t'.endIdx
    (le_trans (le_of_eq hfi) he)

/-- In the recording branch of the slot loop, the new `masterLength[sg]`
equals the group maximum of the updated looper, provided the invariant held
and the new track end is no smaller than the old. -/
theorem step_ml_record_aux (l : MasterLooper) (sg ti : ℕ) (T3 : Track)
    (ST2 : SystemState)
    (hidx : ti < NUM_TRACKS)
    (hc : ∀ t tj, l.groupedTracks sg t = some tj → tj = t)
    (hslot : l.groupedTracks sg ti = some ti)
    (he : (l.tracks ti).endIdx ≤ T3.endIdx)
    (hml : l.masterLength sg = groupMaxEnd l sg) :
    (if T3.endIdx > l.masterLength sg then
        Function.update l.masterLength sg T3.endIdx
      else l.masterLength) sg =
    groupMaxEnd
      { l with tracks := Function.update l.tracks ti T3, state := ST2,
               masterLength := if T3.endIdx > l.masterLength sg then
                   Function.update l.masterLength sg T3.endIdx
                 else l.masterLength } sg := by
  have hmlmax : (if T3.endIdx > l.masterLength sg then
      Function.update l.masterLength sg T3.endIdx
    else l.masterLength) sg = max (l.masterLength sg) T3.endIdx := by
    split
    · simp only [Function.update_same]
      omega
    · omega
  rw [hmlmax, hml]
  exact (groupMaxEnd_update_superset l sg ti T3 hc hidx hslot he).symm

/-- In the playback branch of the slot loop, the track's `endIdx` is
untouched, so the invariant carries over. -/
theorem step_ml_playback_aux (l : MasterLooper) (sg ti : ℕ) (T3 : Track)
    (he : T3.endIdx = (l.tracks ti).endIdx)
    (hml : l.masterLength sg = groupMaxEnd l sg) :
    l.masterLength sg =
    groupMaxEnd { l with tracks := Function.update l.tracks ti T3 } sg := by
  rw [hml]
  refine (groupMaxEnd_congr l
    { l with tracks := Function.update l.tracks ti T3 } sg rfl ?_).symm
  intro t
  by_cases ht : t = ti
  · subst ht
    show (Function.update l.tracks t T3 t).endIdx = _
    rw [Function.update_same]
    exact he
  · show (Function.update l.tracks ti T3 t).endIdx = _
    rw [Function.update_noteq ht]

/-- One slot-loop iteration preserves the master-length invariant for the
active group (canonical slot discipline assumed). -/
theorem updateIndicesStep_ml (sg st n : ℕ) (l : MasterLooper) (idx : ℕ)
    (hidx : idx < NUM_TRACKS)
    (hc : ∀ t tj, l.groupedTracks sg t = some tj → tj = t)
    (hml : l.masterLength sg = groupMaxEnd l sg) :
    (updateIndicesStep sg st n l idx).masterLength sg =
      groupMaxEnd (updateIndicesStep sg st n l idx) sg := by
  unfold updateIndicesStep
  cases hslot : l.groupedTracks sg idx with
  | none => exact hml
  | some ti =>
    have hti : ti = idx := hc idx ti hslot
    subst hti
    dsimp only
    by_cases hoff : (l.tracks ti).state = TrackState.off
    · rw [if_pos hoff]
      exact hml
    · rw [if_neg hoff]
      by_cases hcond : st = ti ∧ (l.state = SystemState.calibration ∨
          l.state = SystemState.recording)
      · rw [if_pos hcond]
        refine step_ml_record_aux l sg ti _ _ hidx hc hslot ?_ hml
        split <;> split <;> simp_all <;> omega
      · rw [if_neg hcond]
        refine step_ml_playback_aux l sg ti _ ?_ hml
        split <;> split <;> rfl

/-- The whole slot loop preserves the master-length invariant for the active
group. -/
theorem foldl_updateIndicesStep_ml (sg st n : ℕ) (lst : List ℕ)
    (hlst : ∀ idx ∈ lst, idx < NUM_TRACKS) :
    ∀ l : MasterLooper,
      (∀ t tj, l.groupedTracks sg t = some tj → tj = t) →
      l.masterLength sg = groupMaxEnd l sg →
      (lst.foldl (updateIndicesStep sg st n) l).masterLength sg =
        groupMaxEnd (lst.foldl (updateIndicesStep sg st n) l) sg := by
  induction lst with
  | nil => intro l _ hml; exact hml
  | cons a as ih =>
    intro l hc hml
    rw [List.foldl_cons]
    refine ih (fun idx h => hlst idx (by simp [h])) _ ?_ ?_
    · intro t tj hslot
      rw [(updateIndicesStep_frame sg st n l a).2.1] at hslot
      exact hc t tj hslot
    · exact updateIndicesStep_ml sg st n l a (hlst a (by simp)) hc hml

/-! ## Claim theorems -/

/-- C8: after every run of the position engine (`updateIndices`, any frame
count, any starting state), `masterCurrIdx ≤ SAMPLE_LIMIT`: the master index
is advanced and clamped to `SAMPLE_LIMIT` up front, never touched by the
per-track loop, and at most reset to 0 afterwards. -/
theorem updateIndices_masterCurrIdx_le (l : MasterLooper) (n : ℕ) :
    (updateIndices l n).masterCurrIdx ≤ SAMPLE_LIMIT := by
  unfold updateIndices
  dsimp only
  by_cases hm : (l.masterCurrIdx + n) % U32 > SAMPLE_LIMIT
  · simp only [hm, if_true]
    split
    · simp
    · rw [foldl_updateIndicesStep_masterCurrIdx]
  · simp only [hm, if_false]
    split
    · simp
    · rw [foldl_updateIndicesStep_masterCurrIdx]
      exact Nat.le_of_not_lt hm

/-- C2: evaluation of `updateIndices` at the buffer-full boundary, one cycle
of `n = 128` from `currIdx = SAMPLE_LIMIT - 64`.  While Recording the clamp
fires exactly as the claim says: `currIdx` ends at `SAMPLE_LIMIT`, the system
is forced to Playback, and `endIdx` keeps the captured length
(`SAMPLE_LIMIT`).  But while Overdubbing the very same situation is NOT
guarded: the branch in the source tests
`SYSTEM_STATE_CALIBRATION /*OVERDUBBING*/` instead of
`SYSTEM_STATE_OVERDUBBING`, so `currIdx` runs past the limit to
`SAMPLE_LIMIT + 64` and the system stays in Overdubbing, contradicting both
the claim and the source's own inline comment. -/
theorem updateIndices_bufferFull_record_vs_overdub :
    ((updateIndices bufFullLooperRecord 128).tracks 0).currIdx = SAMPLE_LIMIT ∧
    (updateIndices bufFullLooperRecord 128).state = SystemState.playback ∧
    ((updateIndices bufFullLooperRecord 128).tracks 0).endIdx = SAMPLE_LIMIT ∧
    ((updateIndices bufFullLooperOverdub 128).tracks 0).currIdx =
      SAMPLE_LIMIT + 64 ∧
    (updateIndices bufFullLooperOverdub 128).state =
      SystemState.overdubbing ∧
    SAMPLE_LIMIT + 64 > SAMPLE_LIMIT := by
  refine ⟨by decide, by decide, by decide, by decide, by decide, by decide⟩

/-- C1 counterexample: in Passthrough with `rec_frame_delay = 64` the cycle
does not copy the whole input: with `n = 128`, constant input 1 and an output
buffer previously holding 0, sample 127 of the output is left at 0, because
`byteSize` shrinks to `n - rec_frame_delay = 64` samples. -/
theorem passthrough_nonzero_delay_not_full_copy :
    ¬ (∀ i < 128,
        (playRecordPassthrough delayLooper (fun _ => 1) none (fun _ => 0) none
          128).1 i = (fun (_ : ℕ) => (1 : ℚ)) i) := by
  intro h
  have h127 := h 127 (by norm_num)
  simp [playRecordPassthrough, passthroughCopyCount, delayLooper,
    emptyLooper] at h127

/-- C3 counterexample: in the S3 scenario (`endIdx = 256`, `startIdx = 0`,
repeat on, Playback, `currIdx = 200`, master index 200 of master length
1000), one `updateIndices` cycle of `n = 128` does NOT leave `currIdx = 72`:
the source resets a wrapped repeat track to `startIdx`, discarding the
overshoot, so `currIdx` ends at 0. -/
theorem repeat_wrap_currIdx_ne_72 :
    ((updateIndices (repeatScenario (fun _ => 0) 1000) 128).tracks 0).currIdx
      ≠ 72 ∧
    ((updateIndices (repeatScenario (fun _ => 0) 1000) 128).tracks 0).currIdx
      = 0 := by
  exact ⟨by decide, by decide⟩

/-- C5 counterexample: the mixdown DOES read the sample at position exactly
`endIdx`.  With a track whose `currIdx = 0`, `endIdx = 1` and whose buffer
holds `1/2` at position 1 (one past the last recorded sample), output sample
`s = 1` of the mix is `1/2`, not 0 — because the source guards the read with
`trackIdx <= track->endIdx`, not a strict bound. -/
theorem mixdown_reads_endIdx_boundary :
    doMixDownSampleLeft edgeLooper none 1 = 1 / 2 ∧
    (edgeLooper.tracks 0).currIdx + 1 = (edgeLooper.tracks 0).endIdx ∧
    (1 / 2 : ℚ) ≠ 0 := by
  refine ⟨?_, by decide, by norm_num⟩
  norm_num [doMixDownSampleLeft, doMixDownStepLeft, edgeLooper, emptyLooper,
    setGrouped, Function.update, limiter, FLT_MAX, defaultTrack, edgeTrack,
    NUM_TRACKS, List.range_succ]
  exact ⟨by decide, by decide⟩

/-- C6 counterexample: `masterLength[g] = max of endIdx over group g` is not
preserved by `removeTrackFromGroup`.  Starting from a looper where the
equality holds for group 0 (`masterLength[0] = 100`, sole member with
`endIdx = 100`), removing that member leaves `masterLength[0] = 100` while
the group maximum drops to 0. -/
theorem removeTrack_breaks_masterLength_eq :
    lenLooper.masterLength 0 = 100 ∧
    groupMaxEnd lenLooper 0 = 100 ∧
    (removeTrackFromGroup lenLooper
      { initialCC with track := 0, group := 0 }).masterLength 0 = 100 ∧
    groupMaxEnd (removeTrackFromGroup lenLooper
      { initialCC with track := 0, group := 0 }) 0 = 0 ∧
    (100 : ℕ) ≠ 0 := by
  refine ⟨by decide, by decide, by decide, by decide, by decide⟩

/-- C7 counterexample: `startIdx ≤ endIdx` does NOT hold immediately after
`startRecording`.  Recording track 1 into group 0 while track 0 is playing
mid-loop (master index 500, one active track, selected track 0 ≠ 1, same
group) skips the master reset, so the new track gets `startIdx = 500` and
`endIdx = 0`. -/
theorem startRecording_breaks_startIdx_le_endIdx :
    ((startRecording midLooper
      { initialCC with track := 1, group := 0 }).tracks 1).startIdx = 500 ∧
    ((startRecording midLooper
      { initialCC with track := 1, group := 0 }).tracks 1).endIdx = 0 ∧
    ¬ ((startRecording midLooper
      { initialCC with track := 1, group := 0 }).tracks 1).startIdx ≤
        ((startRecording midLooper
          { initialCC with track := 1, group := 0 }).tracks 1).endIdx := by
  refine ⟨by decide, by decide, by decide⟩

/-- C9 counterexample: a command whose decoded track is out of range can be
ACCEPTED.  The six bytes `r99x0\r` decode track 99 (≥ 16), but because the
sub-command byte is not 'g' the digits are never stored into the command
context; the trailing bounds check then passes on the stale in-range context,
one ACK byte 'p' (112) is emitted — not the NAK 'f' (102) the claim requires
— and an event is published (`updated = true`). -/
theorem processUART_accepts_out_of_range_track :
    decodeTrack 57 57 = 99 ∧
    ¬ (99 : ℕ) < NUM_TRACKS ∧
    (processUART initialCC (mkBuf 114 57 57 120 48 13)).2.1 = [112] ∧
    (processUART initialCC (mkBuf 114 57 57 120 48 13)).1.updated = true ∧
    (112 : ℕ) ≠ 102 := by
  refine ⟨by decide, by decide, by decide, by decide, by decide⟩

/-- C1 (amended): in Passthrough, the cycle copies exactly the first `k`
samples of the input, where `k = passthroughCopyCount` (that is,
`n - rec_frame_delay` when a record delay is pending, else `play_frame_delay`
when a play delay is pending, else `n`): for `i < k` the left output equals
the left input, the right output equals the right input when both right
ports exist and the left input when only the right output exists; samples at
`i ≥ k` keep the output buffer's previous contents; and only with both
delays zero does the copy cover all of the `n` frames. -/
theorem passthrough_copies_truncated (l : MasterLooper) (inL fR outL gR : ℕ → ℚ)
    (mr mo : Option (ℕ → ℚ)) (n i : ℕ)
    (hi : i < passthroughCopyCount l n) :
    (playRecordPassthrough l inL mr outL mo n).1 i = inL i ∧
    (∃ r, (playRecordPassthrough l inL none outL (some gR) n).2 = some r ∧
      r i = inL i) ∧
    (∃ r, (playRecordPassthrough l inL (some fR) outL (some gR) n).2 = some r ∧
      r i = fR i) ∧
    (∀ j, passthroughCopyCount l n ≤ j →
      (playRecordPassthrough l inL mr outL mo n).1 j = outL j) ∧
    (l.rec_frame_delay = 0 → l.play_frame_delay = 0 →
      passthroughCopyCount l n = n) := by
  refine ⟨if_pos hi, ⟨_, rfl, if_pos hi⟩, ⟨_, rfl, if_pos hi⟩, ?_, ?_⟩
  · intro j hj
    exact if_neg (by omega)
  · intro h1 h2
    simp [passthroughCopyCount, h1, h2]

/-- Witness for `passthrough_copies_truncated` at a concrete delay-free cycle. -/
theorem passthrough_copies_truncated_witness :
    (playRecordPassthrough emptyLooper (fun _ => 1) none (fun _ => 0) none
      128).1 5 = 1 ∧
    passthroughCopyCount emptyLooper 128 = 128 := by
  refine ⟨(passthrough_copies_truncated emptyLooper (fun _ => 1) (fun _ => 2)
      (fun _ => 0) (fun _ => 0) none none 128 5 (by decide)).1,
    (passthrough_copies_truncated emptyLooper (fun _ => 1) (fun _ => 2)
      (fun _ => 0) (fun _ => 0) none none 128 5 (by decide)).2.2.2.2 rfl rfl⟩

/-- C4 counterexample: the overdub limiter is NOT symmetric.  Overdubbing the
constant `-0.95·FLT_MAX` onto a zeroed buffer stores the sum unscaled, even
though its absolute value exceeds `0.9·FLT_MAX`; the claim would require the
stored value to be the sum times 0.9, which differs. -/
theorem overdub_no_negative_limiting :
    overdub (fun _ => -(95 / 100) * FLT_MAX) (fun _ => 0) 1 0
      = -(95 / 100) * FLT_MAX ∧
    |(-(95 / 100) * FLT_MAX : ℚ)| > (9 / 10) * FLT_MAX ∧
    (-(95 / 100) * FLT_MAX : ℚ) ≠ (-(95 / 100) * FLT_MAX) * (9 / 10) := by
  refine ⟨?_, ?_, ?_⟩
  · show overdubLoop _ _ 1 0 = _
    rw [overdubLoop_apply]
    norm_num [limiter, FLT_MAX]
  · rw [show (-(95 / 100) * FLT_MAX : ℚ) = -((95 / 100) * FLT_MAX) by ring,
      abs_neg, abs_of_nonneg (by norm_num [FLT_MAX])]
    norm_num [FLT_MAX]
  · norm_num [FLT_MAX]

/-- C4 (amended): for `i < n` (with `n ≤ 255`, the `uint8_t` loop domain) the
overdub stores `src_in[i] + buf[i]` limited on the positive side only — the
sum is scaled by 0.9 exactly when it exceeds `0.9·FLT_MAX`, and stored
exactly otherwise (negative sums of any magnitude included); positions at or
beyond `n` are untouched.  (`buf` is the track slice starting at the call's
write offset, matching the C call `overdub(in, &channel[trackIdx], n)`.) -/
theorem overdub_limits_positive_side_only (src buf : ℕ → ℚ) (n i : ℕ)
    (hn : n ≤ 255) (hi : i < n) :
    (src i + buf i > (9 / 10) * FLT_MAX →
        overdub src buf n i = (src i + buf i) * (9 / 10)) ∧
    (¬ src i + buf i > (9 / 10) * FLT_MAX →
        overdub src buf n i = src i + buf i) ∧
    ∀ j, n ≤ j → overdub src buf n j = buf j := by
  unfold overdub
  refine ⟨?_, ?_, ?_⟩
  · intro h
    rw [overdubLoop_apply]
    simp [hi, limiter, h]
  · intro h
    rw [overdubLoop_apply]
    simp [hi, limiter, h]
  · intro j hj
    rw [overdubLoop_apply]
    simp [show ¬j < n by omega]

/-- Witness for `overdub_limits_positive_side_only` at a small sum. -/
theorem overdub_limits_positive_side_only_witness :
    overdub (fun _ => 1) (fun _ => 0) 1 0 = 1 ∧
    ¬ ((1 : ℚ) + 0 > (9 / 10) * FLT_MAX) := by
  have hlim : ¬ ((1 : ℚ) + 0 > (9 / 10) * FLT_MAX) := by
    norm_num [FLT_MAX]
  have h := (overdub_limits_positive_side_only (fun _ => 1) (fun _ => 0) 1 0
    (by norm_num) (by norm_num)).2.1 hlim
  exact ⟨by simpa using h, hlim⟩

/-- C7 (amended): after `startRecording` the recorded track has `endIdx = 0`
and `startIdx = currIdx =` the (possibly reset) master index, so
`startIdx ≤ endIdx` holds immediately after the transition exactly when that
master index is 0; it does hold whenever the command targets a group other
than the selected one, since that forces the master reset. -/
theorem startRecording_index_characterization (l : MasterLooper)
    (cc : ControlContext) :
    ((startRecording l cc).tracks cc.track).endIdx = 0 ∧
    ((startRecording l cc).tracks cc.track).startIdx =
      (startRecording l cc).masterCurrIdx ∧
    ((startRecording l cc).tracks cc.track).currIdx =
      (startRecording l cc).masterCurrIdx ∧
    (((startRecording l cc).tracks cc.track).startIdx ≤
        ((startRecording l cc).tracks cc.track).endIdx ↔
      (startRecording l cc).masterCurrIdx = 0) ∧
    (cc.group ≠ l.selectedGroup → (startRecording l cc).masterCurrIdx = 0) := by
  unfold startRecording
  dsimp only
  split_ifs <;> simp_all [Function.update_same, Nat.le_zero]

/-- Witness for `startRecording_index_characterization`: recording into a
fresh group resets the master index, so the new track starts consistent. -/
theorem startRecording_index_characterization_witness :
    ((startRecording midLooper
      { track := 1, group := 1, event := 0, «repeat» := false,
        updated := false }).tracks 1).endIdx = 0 ∧
    (startRecording midLooper
      { track := 1, group := 1, event := 0, «repeat» := false,
        updated := false }).masterCurrIdx = 0 := by
  refine ⟨(startRecording_index_characterization midLooper _).1,
    (startRecording_index_characterization midLooper _).2.2.2.2 (by decide)⟩

/-- C3 (amended): in the S3 scenario (lone group-0 track with buffer `buf`,
`endIdx = 256`, `startIdx = 0`, repeat on, Playback, `currIdx = 200`, master
length 1000, master index 200), one `updateIndices` cycle of `n = 128`
leaves `currIdx = startIdx = 0` — the wrap discards the overshoot — and the
same cycle's mixdown output is `buf[200 + s]` for `200 + s ≤ 256` (the
read is bounded by `trackIdx ≤ endIdx`, so the sample at `endIdx` itself is
included) and 0 for the remaining samples: no mid-cycle wraparound.  The
buffer is assumed inside the limiter's headroom so the sums are exact. -/
theorem repeat_wrap_resets_to_start (buf : ℕ → ℚ)
    (hbuf : ∀ i, buf i ≤ (9 / 10) * FLT_MAX) :
    ((updateIndices (repeatScenario buf 1000) 128).tracks 0).currIdx = 0 ∧
    ∀ s < 128, doMixDownSampleLeft (repeatScenario buf 1000) none s =
      if 200 + s ≤ 256 then buf (200 + s) else 0 := by
  have hkey : updateIndices (repeatScenario buf 1000) 128 =
      { repeatScenario buf 1000 with
          masterCurrIdx := 328,
          tracks := Function.update (repeatScenario buf 1000).tracks 0
            { repeatTrack buf with currIdx := 0 } } := by
    refine updateIndices_eval _ _ 328 ?_ _ ?_ ?_
    · norm_num [repeatScenario, emptyLooper, U32, SAMPLE_LIMIT]
    · rw [show List.range NUM_TRACKS =
        0 :: [1, 2, 3, 4, 5, 6, 7, 8, 9, 10, 11, 12, 13, 14, 15] from rfl]
      rw [List.foldl_cons]
      rw [show updateIndicesStep (repeatScenario buf 1000).selectedGroup
          (repeatScenario buf 1000).selectedTrack 128
          { repeatScenario buf 1000 with masterCurrIdx := 328 } 0 =
          { repeatScenario buf 1000 with
              masterCurrIdx := 328,
              tracks := Function.update (repeatScenario buf 1000).tracks 0
                { repeatTrack buf with currIdx := 0 } } from rfl]
      refine foldl_updateIndicesStep_of_none _ _ _ _ _ ?_
      intro idx hidx
      fin_cases hidx <;> rfl
    · intro h
      exact absurd h.2 (show ¬ ((328 : ℕ) > 1000) by norm_num)
  constructor
  · rw [hkey]
    rfl
  · intro s hs
    unfold doMixDownSampleLeft
    dsimp only
    rw [show List.range NUM_TRACKS =
      0 :: [1, 2, 3, 4, 5, 6, 7, 8, 9, 10, 11, 12, 13, 14, 15] from rfl]
    rw [List.foldl_cons]
    have hstep0 : doMixDownStepLeft (repeatScenario buf 1000) s 0 0 =
        (if 200 + s ≤ 256 then limiter (0 + buf (200 + s)) else 0) := by
      unfold doMixDownStepLeft
      rw [show (repeatScenario buf 1000).groupedTracks
          (repeatScenario buf 1000).selectedGroup 0 = some 0 from rfl]
      dsimp only
      rw [if_pos ⟨show (200 : ℕ) ≥ 0 by norm_num, show (200 : ℕ) < 256 by
        norm_num, show TrackState.playback ≠ TrackState.off by decide,
        show TrackState.playback ≠ TrackState.mute by decide⟩]
      rfl
    rw [hstep0]
    have hrest : ∀ (a : ℚ) (idx : ℕ),
        idx ∈ [1, 2, 3, 4, 5, 6, 7, 8, 9, 10, 11, 12, 13, 14, 15] →
        doMixDownStepLeft (repeatScenario buf 1000) s a idx = a := by
      intro a idx hidx
      fin_cases hidx <;> rfl
    rw [foldl_fixed _ _ hrest]
    split
    · rw [zero_add, limiter, if_neg]
      have := hbuf (200 + s)
      intro hcon
      exact absurd this (not_le.mpr hcon)
    · rfl

/-- Witness for `repeat_wrap_resets_to_start` with a zero buffer, reading one
in-range and relying on the wrap result. -/
theorem repeat_wrap_resets_to_start_witness :
    ((updateIndices (repeatScenario (fun _ => 0) 1000) 128).tracks 0).currIdx
      = 0 ∧
    doMixDownSampleLeft (repeatScenario (fun _ => 0) 1000) none 30 =
      if 200 + 30 ≤ 256 then (fun (_ : ℕ) => (0 : ℚ)) (200 + 30) else 0 := by
  have hb : ∀ i, (fun (_ : ℕ) => (0 : ℚ)) i ≤ (9 / 10) * FLT_MAX := by
    intro i
    norm_num [FLT_MAX]
  exact ⟨(repeat_wrap_resets_to_start (fun _ => 0) hb).1,
    (repeat_wrap_resets_to_start (fun _ => 0) hb).2 30 (by norm_num)⟩

/-- C5 (amended): a track contributes to mix output sample `s` only when it
is neither Off nor Mute, `startIdx ≤ currIdx < endIdx`, and the read
position `currIdx + s` is at most `endIdx` (non-strict: the boundary sample
at exactly `endIdx` is included, see the counterexample).  Removing a slot
that fails this gate — in particular a track whose `currIdx` has run beyond
`endIdx` without repeat — does not change the cycle's mix output. -/
theorem mixdown_skips_noncontributing_track (l : MasterLooper)
    (inL : Option (ℕ → ℚ)) (s idx : ℕ)
    (h : ∀ ti, l.groupedTracks l.selectedGroup idx = some ti →
      ¬ ((l.tracks ti).currIdx ≥ (l.tracks ti).startIdx ∧
         (l.tracks ti).currIdx < (l.tracks ti).endIdx ∧
         (l.tracks ti).state ≠ TrackState.off ∧
         (l.tracks ti).state ≠ TrackState.mute ∧
         (l.tracks ti).currIdx + s ≤ (l.tracks ti).endIdx)) :
    doMixDownSampleLeft
      (removeTrackFromGroup l
        { initialCC with track := idx, group := l.selectedGroup }) inL s =
      doMixDownSampleLeft l inL s := by
  unfold doMixDownSampleLeft removeTrackFromGroup
  dsimp only
  have hfold : (List.range NUM_TRACKS).foldl
      (doMixDownStepLeft
        (removeTrackFromGroup l
          { initialCC with track := idx, group := l.selectedGroup }) s) 0 =
      (List.range NUM_TRACKS).foldl (doMixDownStepLeft l s) 0 := by
    apply List.foldl_ext
    intro a j hj
    unfold doMixDownStepLeft removeTrackFromGroup
    dsimp only
    by_cases hji : j = idx
    · subst hji
      rw [show setGrouped l.groupedTracks l.selectedGroup j none
          l.selectedGroup j = none by
        simp [setGrouped, Function.update_same]]
      cases hslot : l.groupedTracks l.selectedGroup j with
      | none => rfl
      | some ti =>
        dsimp only
        by_cases hg : (l.tracks ti).currIdx ≥ (l.tracks ti).startIdx ∧
            (l.tracks ti).currIdx < (l.tracks ti).endIdx ∧
            (l.tracks ti).state ≠ TrackState.off ∧
            (l.tracks ti).state ≠ TrackState.mute
        · rw [if_pos hg]
          have hE : ¬ (l.tracks ti).currIdx + s ≤ (l.tracks ti).endIdx :=
            fun hE => h ti hslot ⟨hg.1, hg.2.1, hg.2.2.1, hg.2.2.2, hE⟩
          rw [if_neg hE]
        · rw [if_neg hg]
    · rw [show setGrouped l.groupedTracks l.selectedGroup idx none
          l.selectedGroup j = l.groupedTracks l.selectedGroup j by
        simp [setGrouped, Function.update_same, Function.update_noteq hji]]
  unfold removeTrackFromGroup at hfold
  dsimp only at hfold
  rw [hfold]

/-- Witness for `mixdown_skips_noncontributing_track`: a track stuck past
its end without repeat can be removed without changing the mix. -/
theorem mixdown_skips_noncontributing_track_witness :
    doMixDownSampleLeft
      (removeTrackFromGroup staleLooper
        { initialCC with track := 0, group := staleLooper.selectedGroup })
      none 3 =
      doMixDownSampleLeft staleLooper none 3 := by
  refine mixdown_skips_noncontributing_track staleLooper none 3 0 ?_
  intro ti hti
  rw [show staleLooper.groupedTracks staleLooper.selectedGroup 0 = some 0
    from rfl] at hti
  injection hti with hh
  subst hh
  decide

/-- C9 (amended): for six-byte commands ending in CR (and digit bytes where
digits belong), exactly one reply byte is emitted and the bounds check runs
on the stored context: a mute command is ACKed with 'p' (112) iff its decoded
track `10·d1 + d2` is below 16 (and published exactly then); a record command
with sub-command 'g' is ACKed iff both its track and group digits are in
range; a record command with a wrong sub-command byte never stores its digits
and is ACKed against the initial (in-range) context; a group-select is ACKed
iff its digit is below 4; an unknown first character gets exactly one NAK
'f' (102) with nothing published; and a command with an invalid final byte is
dropped with no reply at all.  Digits decode as `ch - '0'`. -/
theorem processUART_reply_characterization :
    (∀ d1 < 10, ∀ d2 < 10,
      decodeTrack (48 + d1) (48 + d2) = 10 * d1 + d2 ∧
      (processUART initialCC (mkBuf 109 (48 + d1) (48 + d2) 48 48 13)).2.1 =
        [if 10 * d1 + d2 < 16 then 112 else 102] ∧
      ((processUART initialCC
          (mkBuf 109 (48 + d1) (48 + d2) 48 48 13)).1.updated
        = decide (10 * d1 + d2 < 16))) ∧
    (∀ d1 < 10, ∀ d2 < 10, ∀ dg < 10,
      (processUART initialCC
          (mkBuf 114 (48 + d1) (48 + d2) 103 (48 + dg) 13)).2.1 =
        [if 10 * d1 + d2 < 16 ∧ dg < 4 then 112 else 102]) ∧
    (∀ d1 < 10, ∀ d2 < 10,
      (processUART initialCC
          (mkBuf 114 (48 + d1) (48 + d2) 120 48 13)).2.1 = [112] ∧
      (processUART initialCC
          (mkBuf 114 (48 + d1) (48 + d2) 120 48 13)).1.track = 0) ∧
    (∀ dg < 10, decodeGroup (48 + dg) = dg ∧
      (processUART initialCC (mkBuf 103 (48 + dg) 48 48 48 13)).2.1 =
        [if dg < 4 then 112 else 102]) ∧
    (processUART initialCC (mkBuf 122 48 48 48 48 13)) =
      (initialCC, [102], false) ∧
    (processUART initialCC (mkBuf 109 48 48 48 48 48)).2.1 = [] := by
  refine ⟨by decide, by decide, by decide, by decide, by decide, by decide⟩

/-- Witness for `processUART_reply_characterization` at track digits 9 9
(decoded track 99, rejected for the mute command). -/
theorem processUART_reply_characterization_witness :
    decodeTrack (48 + 9) (48 + 9) = 10 * 9 + 9 ∧
    (processUART initialCC (mkBuf 109 (48 + 9) (48 + 9) 48 48 13)).2.1 =
      [if 10 * 9 + 9 < 16 then 112 else 102] := by
  have h := processUART_reply_characterization.1 9 (by norm_num) 9
    (by norm_num)
  exact ⟨h.1, h.2.1⟩

/-- C10: applying a PlayTrack event while the system is Recording or
Overdubbing finalizes the currently selected track of the currently selected
group, regardless of the track and group carried by the command: the result
is identical for any two commands differing only in track/group, the
persistent command context comes back overwritten with the selection, the
selected track ends in Playback, and no other track is modified. -/
theorem stop_finalizes_selected_track (l : MasterLooper)
    (t1 g1 t2 g2 : ℕ) (r u : Bool)
    (h : l.state = SystemState.recording ∨
      l.state = SystemState.overdubbing) :
    controlStateMachine l
        { track := t1, group := g1, event := SYSTEM_EVENT_PLAY_TRACK,
          «repeat» := r, updated := u } =
      controlStateMachine l
        { track := t2, group := g2, event := SYSTEM_EVENT_PLAY_TRACK,
          «repeat» := r, updated := u } ∧
    (controlStateMachine l
        { track := t1, group := g1, event := SYSTEM_EVENT_PLAY_TRACK,
          «repeat» := r, updated := u }).2.track = l.selectedTrack ∧
    (controlStateMachine l
        { track := t1, group := g1, event := SYSTEM_EVENT_PLAY_TRACK,
          «repeat» := r, updated := u }).2.group = l.selectedGroup ∧
    ((controlStateMachine l
        { track := t1, group := g1, event := SYSTEM_EVENT_PLAY_TRACK,
          «repeat» := r, updated := u }).1.tracks l.selectedTrack).state =
      TrackState.playback ∧
    ∀ j, j ≠ l.selectedTrack →
      (controlStateMachine l
        { track := t1, group := g1, event := SYSTEM_EVENT_PLAY_TRACK,
          «repeat» := r, updated := u }).1.tracks j = l.tracks j := by
  rcases h with h | h
  · unfold controlStateMachine
    rw [h]
    dsimp only
    unfold eventHandlerRecording
    rw [if_neg (by decide : ¬ (SYSTEM_EVENT_PLAY_TRACK =
      SYSTEM_EVENT_PASSTHROUGH)), if_pos rfl]
    unfold stopRecording
    dsimp only
    refine ⟨rfl, rfl, rfl, ?_, ?_⟩
    · rw [Function.update_same]
    · intro j hj
      rw [Function.update_noteq hj]
      split_ifs <;> simp [Function.update_noteq hj]
  · unfold controlStateMachine
    rw [h]
    dsimp only
    unfold eventHandlerOverdubbing
    rw [if_neg (by decide : ¬ (SYSTEM_EVENT_PLAY_TRACK =
      SYSTEM_EVENT_PASSTHROUGH)), if_pos rfl]
    unfold stopOverdubbing
    dsimp only
    refine ⟨rfl, rfl, rfl, ?_, ?_⟩
    · rw [Function.update_same]
    · intro j hj
      rw [Function.update_noteq hj]
      split_ifs <;> simp [Function.update_noteq hj]

/-- Witness for `stop_finalizes_selected_track`: stopping a recording on
`bufFullLooperRecord` with two different command tracks yields identical
results, and track 5 is untouched. -/
theorem stop_finalizes_selected_track_witness :
    controlStateMachine bufFullLooperRecord
        { track := 2, group := 3, event := SYSTEM_EVENT_PLAY_TRACK,
          «repeat» := true, updated := false } =
      controlStateMachine bufFullLooperRecord
        { track := 7, group := 1, event := SYSTEM_EVENT_PLAY_TRACK,
          «repeat» := true, updated := false } ∧
    (controlStateMachine bufFullLooperRecord
        { track := 2, group := 3, event := SYSTEM_EVENT_PLAY_TRACK,
          «repeat» := true, updated := false }).1.tracks 5 =
      bufFullLooperRecord.tracks 5 := by
  have h := stop_finalizes_selected_track bufFullLooperRecord 2 3 7 1 true
    false (Or.inl rfl)
  exact ⟨h.1, h.2.2.2.2 5 (by decide)⟩

/-- C6 (amended): the equality `masterLength[g] =` max of `endIdx` over the
members of group `g` IS preserved by the position engine for the active
group: if it holds before an `updateIndices` cycle (and the group slots obey
the structural discipline that slot `t`, when occupied, points at track `t`,
as every write in the control code maintains), it holds afterwards.  It is
not preserved by every operation — see the counterexample for
`removeTrackFromGroup`. -/
theorem updateIndices_preserves_masterLength_eq (l : MasterLooper) (n : ℕ)
    (hc : slotsCanonical l)
    (hml : l.masterLength l.selectedGroup = groupMaxEnd l l.selectedGroup) :
    (updateIndices l n).masterLength l.selectedGroup =
      groupMaxEnd (updateIndices l n) l.selectedGroup := by
  unfold updateIndices
  dsimp only
  by_cases hm : (l.masterCurrIdx + n) % U32 > SAMPLE_LIMIT
  · simp only [hm, if_true]
    have h := foldl_updateIndicesStep_ml l.selectedGroup l.selectedTrack n
      (List.range NUM_TRACKS) (fun idx hi => List.mem_range.mp hi)
      { l with masterCurrIdx := SAMPLE_LIMIT }
      (fun t tj hslot => hc l.selectedGroup t tj hslot) hml
    split
    · exact h
    · exact h
  · simp only [hm, if_false]
    have h := foldl_updateIndicesStep_ml l.selectedGroup l.selectedTrack n
      (List.range NUM_TRACKS) (fun idx hi => List.mem_range.mp hi)
      { l with masterCurrIdx := (l.masterCurrIdx + n) % U32 }
      (fun t tj hslot => hc l.selectedGroup t tj hslot) hml
    split
    · exact h
    · exact h

/-- Witness for `updateIndices_preserves_masterLength_eq` on a playing
single-track group whose bookkeeping is exact. -/
theorem updateIndices_preserves_masterLength_eq_witness :
    (updateIndices lenLooper 128).masterLength lenLooper.selectedGroup =
      groupMaxEnd (updateIndices lenLooper 128) lenLooper.selectedGroup := by
  refine updateIndices_preserves_masterLength_eq lenLooper 128 ?_ (by decide)
  intro g t ti h
  by_cases hg : g = 0
  · subst hg
    by_cases ht : t = 0
    · subst ht
      rw [show lenLooper.groupedTracks 0 0 = some 0 from rfl] at h
      injection h with hh
      exact hh.symm
    · rw [show lenLooper.groupedTracks 0 t =
        Function.update (fun _ => (none : Option ℕ)) 0 (some 0) t from rfl,
        Function.update_noteq ht] at h
      cases h
  · rw [show lenLooper.groupedTracks g t =
      (Function.update (fun _ _ => (none : Option ℕ)) 0
        (Function.update (fun _ => (none : Option ℕ)) 0 (some 0))) g t
      from rfl] at h
    rw [show (Function.update (fun _ _ => (none : Option ℕ)) 0
      (Function.update (fun _ => (none : Option ℕ)) 0 (some 0))) g =
      (fun _ => (none : Option ℕ)) from Function.update_noteq hg _ _] at h
    cases h

end RpiLooper
